import Mathlib

/-
Verification development for the InterProFetch scripts: a shallow embedding of
the reconciliation reporter (check_missing_downloads.py), the retrying fetcher
and download orchestrator (download_taxonomy.py), the taxonomy node counter
(count_taxonomy_nodes.py) and the table splitter (split_tsv.py), together with
theorems settling the specification claims about them.
-/

namespace InterProFetch

/-! ## Reconciliation reporter (check_missing_downloads.py, main) -/

/-- The four reconciliation quantities computed in `main`:
`completed = required & downloaded`, `missing = required - downloaded`,
`missing_list = sorted(missing)`, `extra_list = sorted(extra)`. -/
structure Report where
  completedCount : Nat
  missingCount : Nat
  missingList : List String
  extraList : List String

/-- Embedding of the set arithmetic of `main` in check_missing_downloads.py:
`missing = required - downloaded`, `completed = required & downloaded`,
`missing_list = sorted(list(missing))`, `extra = downloaded - required`,
`extra_list = sorted(list(extra))`. -/
def reconcile (required downloaded : Finset String) : Report :=
  ⟨(required ∩ downloaded).card,
   (required \ downloaded).card,
   (required \ downloaded).sort (· ≤ ·),
   (downloaded \ required).sort (· ≤ ·)⟩

/-- Python division `a / b`: raises ZeroDivisionError when `b = 0`,
modelled as `none`. -/
def pyDiv (a b : Rat) : Option Rat := if b = 0 then none else some (a / b)

/-- The percentage pair printed by `main`:
`len(completed)/len(required)*100` and `len(missing)/len(required)*100`.
The source divides directly, with no guard on `len(required)`. -/
def summaryPercentages (required downloaded : Finset String) : Option (Rat × Rat) :=
  match pyDiv ((required ∩ downloaded).card : Rat) (required.card : Rat),
        pyDiv ((required \ downloaded).card : Rat) (required.card : Rat) with
  | some cp, some mp => some (cp * 100, mp * 100)
  | _, _ => none

/-- The human-facing summary shows only `missing_list[:10]`. -/
def displayedMissing (required downloaded : Finset String) : List String :=
  ((reconcile required downloaded).missingList).take 10

/-- The human-facing summary shows only `extra_list[:5]`. -/
def displayedExtra (required downloaded : Finset String) : List String :=
  ((reconcile required downloaded).extraList).take 5

/-- The lines written to `args.output` by `main`: one `f"{acc}\n"` write per
element of the FULL `missing_list` (the write loop is inside `if missing:` and
`if args.output:`; when no accession is missing, or no output path is given,
no file is written). -/
def savedMissingLines (required downloaded : Finset String) (outputGiven : Bool) :
    Option (List String) :=
  let ml := (reconcile required downloaded).missingList
  if ml.isEmpty then none
  else if outputGiven then some (ml.map (fun acc => acc ++ "\n")) else none

/-! ## Retrying fetcher (download_taxonomy.py, safe_request) -/

/-- Delay categories slept by `safe_request`: `time.sleep(TIMEOUT_DELAY)`
after an HTTP 408, `time.sleep(RETRY_DELAY)` after any other non-200 status
or a transport-level exception. -/
inductive FetchDelay where
  | timeout
  | generic
deriving DecidableEq, Repr

/-- Outcome of one `requests.get` attempt: an HTTP response with a status
code, or a raised `requests.exceptions.RequestException`. -/
inductive AttemptOutcome where
  | resp (status : Nat)
  | exc
deriving DecidableEq, Repr

/-- The loop body of `safe_request`, one constructor of `remote` per attempt
(`remote n` is what the n-th 0-based GET yields). Returns the successful
status (or `none` after the attempt budget is exhausted), the number of GET
attempts issued, and the ordered list of delay categories slept.
Mirrors: status 200 returns immediately; status 408 sleeps the timeout delay;
any other status or an exception sleeps the generic retry delay. -/
def safeRequestGo (remote : Nat → AttemptOutcome) :
    Nat → Nat → Option Nat × Nat × List FetchDelay
  | 0, _ => (none, 0, [])
  | fuel + 1, attempt =>
    match remote attempt with
    | AttemptOutcome.resp s =>
      if s = 200 then (some s, 1, [])
      else
        match safeRequestGo remote fuel (attempt + 1) with
        | (r, k, ds) =>
          (r, k + 1,
            (if s = 408 then FetchDelay.timeout else FetchDelay.generic) :: ds)
    | AttemptOutcome.exc =>
      match safeRequestGo remote fuel (attempt + 1) with
      | (r, k, ds) => (r, k + 1, FetchDelay.generic :: ds)

/-- `safe_request(url)`: `for attempt in range(MAX_RETRIES)` starting at
attempt 0, then `return None` after the loop (the failure sentinel; the
function never lets an exception escape). -/
def safeRequest (maxRetries : Nat) (remote : Nat → AttemptOutcome) :
    Option Nat × Nat × List FetchDelay :=
  safeRequestGo remote maxRetries 0

/-! ## Artifact store and batch download orchestrator (download_taxonomy.py) -/

/-- The artifact store directory, modelled as an association list from file
name to file contents. -/
abbrev Store := List (String × String)

/-- Reading / `os.path.exists`: the contents of the first entry with the
given file name, when present. -/
def storeGet (s : Store) (path : String) : Option String :=
  (s.find? (fun e => e.1 == path)).map (fun e => e.2)

/-- `open(output_path, "w")` followed by `json.dump`: replaces any entry with
the given name by the new contents. -/
def storeWrite (s : Store) (path contents : String) : Store :=
  s.filter (fun e => !(e.1 == path)) ++ [(path, contents)]

/-- `output_path = f"{SAVE_DIR}/{ipr_accession}_taxonomy_by_cellorg.json"`;
the `SAVE_DIR` prefix is dropped since the store already stands for that
directory. -/
def artifactPath (acc : String) : String := acc ++ "_taxonomy_by_cellorg.json"

/-- One iteration of the module-level download loop for one accession.
`net acc = some body` abstracts an iteration in which `safe_request`
succeeded and the response JSON decoded and re-serialized to `body`;
`net acc = none` abstracts exhausted retries or a JSON decode failure (in
both cases nothing is written and the loop moves on). The returned `Nat`
counts `safe_request` invocations for this iteration: 0 when the
`os.path.exists` check short-circuits, 1 otherwise. -/
def processOne (force : Bool) (net : String → Option String) (s : Store)
    (acc : String) : Store × Nat :=
  if (storeGet s (artifactPath acc)).isSome && !force then (s, 0)
  else
    match net acc with
    | some body => (storeWrite s (artifactPath acc) body, 1)
    | none => (s, 1)

/-- The module-level `for i, ipr_accession in enumerate(ipr_accessions, 1)`
loop: accessions processed strictly in source order, one at a time. -/
def runOrchestrator (force : Bool) (net : String → Option String) :
    Store → List String → Store
  | s, [] => s
  | s, acc :: rest =>
    runOrchestrator force net (processOne force net s acc).1 rest

/-- Total number of `safe_request` invocations the loop makes for one given
accession over a whole run. -/
def orchestratorCalls (force : Bool) (net : String → Option String) :
    Store → List String → String → Nat
  | _, [], _ => 0
  | s, acc :: rest, a =>
    (if acc = a then (processOne force net s acc).2 else 0)
    + orchestratorCalls force net (processOne force net s acc).1 rest a

/-! ## Program-level control flow of download_taxonomy.py (claim C8) -/

/-- `df = pd.read_csv(...); ipr_accessions = df['Accession'].tolist()`:
the input table as a list of named columns; the lookup of the
case-sensitively named `Accession` column raises `KeyError` (caught by the
`except` clause) when no column has exactly that name. -/
def parseInputTable (table : List (String × List String)) :
    Except Unit (List String) :=
  match table.find? (fun c => c.1 == "Accession") with
  | some c => Except.ok c.2
  | none => Except.error ()

/-- Reading the input file: `none` models an unreadable file
(`pd.read_csv` raised); otherwise the table is parsed. Both failure modes
land in the same `except` clause of the source. -/
def readInput (raw : Option (List (String × List String))) :
    Except Unit (List String) :=
  match raw with
  | none => Except.error ()
  | some table => parseInputTable table

/-- The whole program around the loop: on a read/parse failure it runs
`sys.exit(1)` before processing any accession (result: exit code 1, store
untouched, 0 accessions processed); otherwise the loop runs over every
accession of the list — per-accession fetch failures are logged and skipped
inside `processOne`, never fatal — and the program ends with exit code 0
having processed them all. Result: (exit code, final store, number of
accessions processed by the loop). -/
def runDownloadProgram (raw : Option (List (String × List String)))
    (force : Bool) (net : String → Option String) (s : Store) :
    Nat × Store × Nat :=
  match readInput raw with
  | Except.error _ => (1, s, 0)
  | Except.ok accs => (0, runOrchestrator force net s accs, accs.length)

/-! ## Taxonomy node counter (count_taxonomy_nodes.py) -/

/-- The `metadata` object of a result node; `children` models the value of
`metadata.get('children', [])` before the default kicks in: `none` stands for
an absent (or JSON-null) field, both of which the source treats as falsy. -/
structure TaxMeta where
  children : Option (List String)

/-- One element of `results`; `metadata` is `node.get('metadata', {})`,
with `none` modelling an absent field (defaulted to the empty object). -/
structure TaxNode where
  metadata : Option TaxMeta

/-- The effective children list the source tests with `if children:`. -/
def nodeChildren (n : TaxNode) : List String :=
  match n.metadata with
  | none => []
  | some m => m.children.getD []

/-- A parsed taxonomy JSON document: `count`, `results`, `next`, `previous`,
each `none` when the field is absent (or, for the cursors, JSON null —
`data.get('next')` yields Python None in both cases). -/
structure TaxDoc where
  count : Option Nat
  results : Option (List TaxNode)
  next : Option String
  previous : Option String

/-- The statistics dictionary returned by `count_taxonomy_nodes` (minus the
echoed file path). -/
structure TaxStats where
  total_count_from_api : Nat
  actual_nodes_in_file : Nat
  nodes_with_children : Nat
  nodes_without_children : Nat
  has_next_page : Bool
  has_previous_page : Bool
  is_complete_dataset : Bool

/-- The classification loop: `if children: nodes_with_children += 1 else:
nodes_without_children += 1` over all result nodes. -/
def childTally (results : List TaxNode) : Nat × Nat :=
  results.foldl
    (fun t n => if nodeChildren n ≠ [] then (t.1 + 1, t.2) else (t.1, t.2 + 1))
    (0, 0)

/-- `count_taxonomy_nodes` on an already-parsed document:
`total_count = data.get('count', 0)`, `results = data.get('results', [])`,
`has_next_page = data.get('next') is not None` (same for previous),
`is_complete_dataset = not has_next_page and not has_previous_page`. -/
def count_taxonomy_nodes (d : TaxDoc) : TaxStats :=
  let results := d.results.getD []
  ⟨d.count.getD 0,
   results.length,
   (childTally results).1,
   (childTally results).2,
   d.next.isSome,
   d.previous.isSome,
   (!d.next.isSome) && (!d.previous.isSome)⟩

/-! ## Store enumeration and the two suffix families (claim C1) -/

/-- Index of the first occurrence of `pat` in `s`: the least `i` such that
`pat` is a prefix of `s.drop i` (the position Python's `str.split` cuts at). -/
def firstOccurrence (pat s : List Char) : Option Nat :=
  (List.range (s.length + 1)).find? (fun i => pat.isPrefixOf (s.drop i))

/-- Python's substring test `pat in s`. -/
def containsSub (pat s : List Char) : Bool := (firstOccurrence pat s).isSome

/-- `s.split(pat)[0]`: the part before the first occurrence of `pat`, or all
of `s` when `pat` does not occur. -/
def splitHead (pat s : List Char) : List Char :=
  match firstOccurrence pat s with
  | some i => s.take i
  | none => s

/-- `Path(name).stem` for a file name ending in ".json" (the only names fed
to it here): the name without its last five characters. -/
def jsonStem (name : String) : List Char :=
  name.data.take (name.data.length - 5)

/-- Matching of the glob pattern `*_taxonomy*.json` used by
`get_downloaded_accessions`: the name decomposes as
A ++ "_taxonomy" ++ B ++ ".json". Since "_taxonomy" contains no dot, an
occurrence overlapping the final ".json" is impossible, so this is equivalent
to: the name ends in ".json" and "_taxonomy" occurs in the rest. (Names with
a leading dot, which glob would skip, are not modelled.) -/
def matchesTaxAnyGlob (name : String) : Bool :=
  ".json".data.isSuffixOf name.data
    && containsSub "_taxonomy".data (jsonStem name)

/-- `get_downloaded_accessions`: for every file matching `*_taxonomy*.json`,
take the stem, check `'_taxonomy' in filename`, and record
`filename.split('_taxonomy')[0]` as a downloaded accession. (The source
collects into a Python set; the embedding keeps the list, preserving
membership.) -/
def get_downloaded_accessions (dir : List String) : List String :=
  dir.filterMap (fun name =>
    if matchesTaxAnyGlob name then
      let stem := jsonStem name
      if containsSub "_taxonomy".data stem then
        some (String.mk (splitHead "_taxonomy".data stem))
      else none
    else none)

/-- Matching of the literal-suffix glob `*_taxonomy.json` used by
`process_directory` in count_taxonomy_nodes.py. -/
def matchesTaxonomyGlob (name : String) : Bool :=
  "_taxonomy.json".data.isSuffixOf name.data

/-- The files `process_directory` enumerates for the `_taxonomy` family. -/
def process_directory_files (dir : List String) : List String :=
  dir.filter (fun name => matchesTaxonomyGlob name)

/-! ## Table splitter (split_tsv.py) -/

/-- Python slicing `l[::step]` (start already consumed): keep the head, then
skip `step - 1` elements, and repeat. -/
def takeEvery (step : Nat) : List String → List String
  | [] => []
  | x :: xs => x :: takeEvery step (xs.drop (step - 1))
termination_by l => l.length
decreasing_by
  simp only [List.length_drop, List.length_cons]
  omega

/-- `tsv.iloc[i::num_parts]`: the rows of the 0-based part `i`. -/
def slicePart (rows : List String) (i n : Nat) : List String :=
  takeEvery n (rows.drop i)

/-- The loop `for i in range(num_parts): part = tsv.iloc[i::num_parts]`:
all written parts, in the order their files are created (file names are
1-indexed `_part{i+1}`). -/
def split_tsv (rows : List String) (n : Nat) : List (List String) :=
  (List.range n).map (fun i => slicePart rows i n)

/-! ## Claim theorems for the reconciliation reporter -/

/-- Claim C3: for every required set R and completed set C, reconciliation
yields `missingList = sorted(R - C)` ascending, `extraList = sorted(C - R)`
ascending, `completedCount = |R ∩ C|`, and
`missingCount + completedCount = |R|`. -/
theorem C3_reconcile_sets_and_counts (R C : Finset String) :
    (reconcile R C).missingList = (R \ C).sort (· ≤ ·)
    ∧ (reconcile R C).extraList = (C \ R).sort (· ≤ ·)
    ∧ (reconcile R C).completedCount = (R ∩ C).card
    ∧ (reconcile R C).missingCount + (reconcile R C).completedCount = R.card := by
  refine ⟨rfl, rfl, rfl, ?_⟩
  exact Finset.card_sdiff_add_card_inter R C

/-- Claim C2 (code bug): the source computes
`len(completed)/len(required)*100` with no guard, so on an empty required set
the percentage computation raises ZeroDivisionError (modelled as `none`)
instead of reporting completedPct = 100.0 and missingPct = 0.0 as the
specification requires. -/
theorem C2_empty_required_divides_by_zero : summaryPercentages ∅ ∅ = none := by
  decide

/-- Claim C7: when an output path is given (and the missing list is nonempty,
so the write branch runs), every element of the FULL missing list is persisted,
one accession per line, and its line count equals `missingCount`; the display
truncation `missing_list[:10]` affects only `displayedMissing`, never the
persisted output. -/
theorem C7_persisted_output_not_truncated (R C : Finset String)
    (h : (reconcile R C).missingList ≠ []) :
    savedMissingLines R C true
      = some ((reconcile R C).missingList.map (fun acc => acc ++ "\n"))
    ∧ ((reconcile R C).missingList.map (fun acc => acc ++ "\n")).length
      = (reconcile R C).missingCount
    ∧ (∀ a ∈ R \ C, (a ++ "\n")
        ∈ (reconcile R C).missingList.map (fun acc => acc ++ "\n"))
    ∧ displayedMissing R C = ((reconcile R C).missingList).take 10 := by
  refine ⟨?_, ?_, ?_, rfl⟩
  · unfold savedMissingLines
    simp only [List.isEmpty_eq_false.mpr h, if_true, Bool.false_eq_true,
      if_false]
  · simp [reconcile, Finset.length_sort]
  · intro a ha
    exact List.mem_map_of_mem _ ((Finset.mem_sort (· ≤ ·)).mpr ha)

/-- Witness for C7 at a concrete instance: required {IPR000001, IPR000002},
completed {IPR000001}. -/
theorem C7_persisted_output_not_truncated_witness :
    savedMissingLines {"IPR000001", "IPR000002"} {"IPR000001"} true
      = some ["IPR000002\n"] := by
  have hset : ({"IPR000001", "IPR000002"} : Finset String) \ {"IPR000001"}
      = {"IPR000002"} := by decide
  have hml : (reconcile {"IPR000001", "IPR000002"} {"IPR000001"}).missingList
      = ["IPR000002"] := by
    show Finset.sort (· ≤ ·) ({"IPR000001", "IPR000002"} \ {"IPR000001"}) = _
    rw [hset, Finset.sort_singleton]
  have h := C7_persisted_output_not_truncated
    {"IPR000001", "IPR000002"} {"IPR000001"} (by rw [hml]; simp)
  rw [h.1, hml]
  rfl

/-! ## Claim theorems for the retrying fetcher -/

theorem safeRequestGo_all_generic (remote : Nat → AttemptOutcome)
    (hfail : ∀ n, ∃ s, remote n = AttemptOutcome.resp s ∧ s ≠ 200 ∧ s ≠ 408) :
    ∀ fuel attempt,
      safeRequestGo remote fuel attempt
        = (none, fuel, List.replicate fuel FetchDelay.generic) := by
  intro fuel
  induction fuel with
  | zero => intro attempt; rfl
  | succ k ih =>
    intro attempt
    obtain ⟨s, hs, h200, h408⟩ := hfail attempt
    simp only [safeRequestGo, hs, if_neg h200, ih (attempt + 1), if_neg h408,
      List.replicate_succ]

/-- Claim C4: if every attempt yields an HTTP status that is neither 200 nor
408, `safe_request` issues exactly MAX_RETRIES GET attempts, sleeps only
generic-category retry delays, and then returns the failure sentinel `none`
(no exception escapes: the embedding is a total function). -/
theorem C4_all_failures_exhausts_retries (maxRetries : Nat)
    (remote : Nat → AttemptOutcome)
    (hfail : ∀ n, ∃ s, remote n = AttemptOutcome.resp s ∧ s ≠ 200 ∧ s ≠ 408) :
    safeRequest maxRetries remote
      = (none, maxRetries, List.replicate maxRetries FetchDelay.generic) :=
  safeRequestGo_all_generic remote hfail maxRetries 0

/-- Witness for C4: a remote that always answers HTTP 500, with the default
MAX_RETRIES = 3. -/
theorem C4_all_failures_exhausts_retries_witness :
    safeRequest 3 (fun _ => AttemptOutcome.resp 500)
      = (none, 3,
         [FetchDelay.generic, FetchDelay.generic, FetchDelay.generic]) :=
  C4_all_failures_exhausts_retries 3 (fun _ => AttemptOutcome.resp 500)
    (fun _ => ⟨500, rfl, by decide, by decide⟩)

/-- Claim C5: if the remote answers HTTP 408 on the first attempt and HTTP
200 on the second, `safe_request` returns the successful response after
exactly two attempts, and the only delay slept is a single timeout-category
delay (no generic retry delay). Requires an attempt budget of at least 2. -/
theorem C5_timeout_then_success (maxRetries : Nat)
    (remote : Nat → AttemptOutcome)
    (h0 : remote 0 = AttemptOutcome.resp 408)
    (h1 : remote 1 = AttemptOutcome.resp 200)
    (hm : 2 ≤ maxRetries) :
    safeRequest maxRetries remote = (some 200, 2, [FetchDelay.timeout]) := by
  obtain ⟨k, rfl⟩ : ∃ k, maxRetries = k + 2 :=
    ⟨maxRetries - 2, (Nat.sub_add_cancel hm).symm⟩
  simp [safeRequest, safeRequestGo, h0, h1]

/-- Witness for C5: a remote answering 408 then 200, with the default
MAX_RETRIES = 3. -/
theorem C5_timeout_then_success_witness :
    safeRequest 3
      (fun n => if n = 0 then AttemptOutcome.resp 408 else AttemptOutcome.resp 200)
      = (some 200, 2, [FetchDelay.timeout]) :=
  C5_timeout_then_success 3 _ rfl rfl (by decide)

/-! ## Claim theorems for the orchestrator and program control flow -/

theorem storeGet_storeWrite_self (s : Store) (q v : String) :
    storeGet (storeWrite s q v) q = some v := by
  unfold storeGet storeWrite
  rw [List.find?_append]
  have h1 : (s.filter (fun e => !(e.1 == q))).find? (fun e => e.1 == q)
      = none := by
    rw [List.find?_filter]
    rw [List.find?_eq_none]
    intro x hx
    simp
  simp [h1]

theorem storeGet_storeWrite_ne (s : Store) (p q v : String) (h : p ≠ q) :
    storeGet (storeWrite s q v) p = storeGet s p := by
  unfold storeGet storeWrite
  rw [List.find?_append]
  have h2 : ([(q, v)].find? (fun e => e.1 == p)) = none := by
    rw [List.find?_eq_none]
    intro x hx
    simp at hx
    subst hx
    simp [Ne.symm h]
  have h3 : (s.filter (fun e => !(e.1 == q))).find? (fun e => e.1 == p)
      = s.find? (fun e => e.1 == p) := by
    rw [List.find?_filter]
    have hfun : (fun (e : String × String) => ((!(e.1 == q)) ∧ (e.1 == p) : Bool))
        = fun e => e.1 == p := by
      funext e
      by_cases he : e.1 = p
      · simp only [he, beq_self_eq_true, Bool.and_true, decide_eq_true_eq]
        simp [Ne.symm h, h]
      · simp [he]
    rw [hfun]
  rw [h2, h3]
  cases s.find? (fun e => e.1 == p) <;> rfl

theorem processOne_preserves (net : String → Option String) (s : Store)
    (a p v : String) (hp : storeGet s p = some v) :
    storeGet (processOne false net s a).1 p = some v := by
  unfold processOne
  by_cases hex : (storeGet s (artifactPath a)).isSome = true
  · simp [hex, hp]
  · rw [Bool.not_eq_true] at hex
    have hne : p ≠ artifactPath a := by
      intro hc
      rw [← hc, hp] at hex
      simp at hex
    cases hnet : net a with
    | some body =>
      simp [hex, hnet,
        storeGet_storeWrite_ne s p (artifactPath a) body hne, hp]
    | none =>
      simp [hex, hnet, hp]

theorem runOrchestrator_preserves (net : String → Option String)
    (accs : List String) : ∀ (s : Store) (p v : String),
    storeGet s p = some v →
    storeGet (runOrchestrator false net s accs) p = some v := by
  induction accs with
  | nil => intro s p v h; exact h
  | cons a rest ih =>
    intro s p v h
    exact ih _ p v (processOne_preserves net s a p v h)

theorem orchestratorCalls_zero_of_present (net : String → Option String)
    (acc : String) (accs : List String) : ∀ (s : Store),
    (storeGet s (artifactPath acc)).isSome = true →
    orchestratorCalls false net s accs acc = 0 := by
  induction accs with
  | nil => intro s _; rfl
  | cons b rest ih =>
    intro s h
    obtain ⟨v, hv⟩ := Option.isSome_iff_exists.mp h
    have hstep : (storeGet (processOne false net s b).1 (artifactPath acc)).isSome
        = true := by
      rw [processOne_preserves net s b _ v hv]; rfl
    unfold orchestratorCalls
    rw [ih _ hstep]
    by_cases hb : b = acc
    · subst hb
      simp [processOne, h]
    · simp [hb]

theorem runOrchestrator_settles (net : String → Option String)
    (accs : List String) : ∀ (s : Store) (a : String), a ∈ accs →
    (storeGet (runOrchestrator false net s accs) (artifactPath a)).isSome = true
    ∨ net a = none := by
  induction accs with
  | nil => intro s a ha; cases ha
  | cons b rest ih =>
    intro s a ha
    rcases List.mem_cons.mp ha with hab | har
    · subst hab
      by_cases hex : (storeGet s (artifactPath a)).isSome = true
      · left
        obtain ⟨v, hv⟩ := Option.isSome_iff_exists.mp hex
        have hs : storeGet (processOne false net s a).1 (artifactPath a)
            = some v := processOne_preserves net s a _ v hv
        show (storeGet (runOrchestrator false net (processOne false net s a).1
          rest) (artifactPath a)).isSome = true
        rw [runOrchestrator_preserves net rest _ _ v hs]; rfl
      · cases hnet : net a with
        | none => right; rfl
        | some body =>
          left
          rw [Bool.not_eq_true] at hex
          have hw : storeGet (processOne false net s a).1 (artifactPath a)
              = some body := by
            simp [processOne, hex, hnet, storeGet_storeWrite_self]
          show (storeGet (runOrchestrator false net (processOne false net s a).1
            rest) (artifactPath a)).isSome = true
          rw [runOrchestrator_preserves net rest _ _ body hw]; rfl
    · exact ih _ a har

theorem runOrchestrator_noop (net : String → Option String)
    (accs : List String) : ∀ (t : Store),
    (∀ a ∈ accs, (storeGet t (artifactPath a)).isSome = true ∨ net a = none) →
    runOrchestrator false net t accs = t := by
  induction accs with
  | nil => intro t _; rfl
  | cons b rest ih =>
    intro t h
    have hstep : (processOne false net t b).1 = t := by
      rcases h b (List.mem_cons_self b rest) with hex | hnet
      · simp [processOne, hex]
      · by_cases hex2 : (storeGet t (artifactPath b)).isSome = true
        · simp [processOne, hex2]
        · rw [Bool.not_eq_true] at hex2
          simp [processOne, hex2, hnet]
    show runOrchestrator false net (processOne false net t b).1 rest = t
    rw [hstep]
    exact ih t (fun a ha => h a (List.mem_cons_of_mem b ha))

/-- Claim C6: with force-redownload disabled, an accession whose artifact file
already exists in the store triggers zero `safe_request` invocations over the
whole run and its artifact is byte-for-byte unchanged at the end; moreover
running the loop twice over the same accession list yields the same final
store as running it once. -/
theorem C6_skip_preserves_and_idempotent (net : String → Option String)
    (s : Store) (acc : String) (accs : List String)
    (h : (storeGet s (artifactPath acc)).isSome = true) :
    orchestratorCalls false net s accs acc = 0
    ∧ storeGet (runOrchestrator false net s accs) (artifactPath acc)
      = storeGet s (artifactPath acc)
    ∧ runOrchestrator false net (runOrchestrator false net s accs) accs
      = runOrchestrator false net s accs := by
  obtain ⟨v, hv⟩ := Option.isSome_iff_exists.mp h
  refine ⟨orchestratorCalls_zero_of_present net acc accs s h, ?_, ?_⟩
  · rw [hv, runOrchestrator_preserves net accs s _ v hv]
  · exact runOrchestrator_noop net accs _
      (fun a ha => runOrchestrator_settles net accs s a ha)

/-- Witness for C6: a store already holding the artifact for IPR000001, a
remote that would answer, and a two-accession run. -/
theorem C6_skip_preserves_and_idempotent_witness :
    orchestratorCalls false (fun _ => some "body")
      [("IPR000001_taxonomy_by_cellorg.json", "old")]
      ["IPR000001", "IPR000002"] "IPR000001" = 0
    ∧ storeGet
        (runOrchestrator false (fun _ => some "body")
          [("IPR000001_taxonomy_by_cellorg.json", "old")]
          ["IPR000001", "IPR000002"])
        (artifactPath "IPR000001")
      = storeGet [("IPR000001_taxonomy_by_cellorg.json", "old")]
        (artifactPath "IPR000001")
    ∧ runOrchestrator false (fun _ => some "body")
        (runOrchestrator false (fun _ => some "body")
          [("IPR000001_taxonomy_by_cellorg.json", "old")]
          ["IPR000001", "IPR000002"])
        ["IPR000001", "IPR000002"]
      = runOrchestrator false (fun _ => some "body")
        [("IPR000001_taxonomy_by_cellorg.json", "old")]
        ["IPR000001", "IPR000002"] :=
  C6_skip_preserves_and_idempotent (fun _ => some "body")
    [("IPR000001_taxonomy_by_cellorg.json", "old")]
    "IPR000001" ["IPR000001", "IPR000002"] (by decide)

/-- Claim C8: an unreadable input table or one lacking the case-sensitively
named Accession column is fatal: the program exits with status 1 before
processing any accession, leaving the store untouched; once the input parses,
the loop processes every accession of the list, whatever the per-accession
fetch outcomes (individual failures are skipped, never fatal). A column named
with the wrong case is not accepted. -/
theorem C8_fatal_input_nonfatal_fetch (raw : Option (List (String × List String)))
    (force : Bool) (net : String → Option String) (s : Store) :
    (readInput raw = Except.error () → runDownloadProgram raw force net s = (1, s, 0))
    ∧ (∀ accs, readInput raw = Except.ok accs →
        runDownloadProgram raw force net s
          = (0, runOrchestrator force net s accs, accs.length))
    ∧ parseInputTable [("accession", ["IPR000001"])] = Except.error () := by
  refine ⟨?_, ?_, rfl⟩
  · intro h
    simp [runDownloadProgram, h]
  · intro accs h
    simp [runDownloadProgram, h]

/-- Witness for C8: an unreadable file exits with status 1 and processes
nothing; a well-formed one-column table processes its single accession. -/
theorem C8_fatal_input_nonfatal_fetch_witness :
    runDownloadProgram none false (fun _ => none) [] = (1, [], 0)
    ∧ runDownloadProgram (some [("Accession", ["IPR000001"])]) false
        (fun _ => none) []
      = (0, runOrchestrator false (fun _ => none) [] ["IPR000001"], 1) :=
  ⟨(C8_fatal_input_nonfatal_fetch none false (fun _ => none) []).1 rfl,
   (C8_fatal_input_nonfatal_fetch (some [("Accession", ["IPR000001"])]) false
     (fun _ => none) []).2.1 ["IPR000001"] rfl⟩

/-! ## Claim theorems for the taxonomy node counter -/

theorem childTally_aux (results : List TaxNode) : ∀ (a b : Nat),
    (results.foldl
      (fun t n => if nodeChildren n ≠ [] then (t.1 + 1, t.2) else (t.1, t.2 + 1))
      (a, b)).1
    + (results.foldl
      (fun t n => if nodeChildren n ≠ [] then (t.1 + 1, t.2) else (t.1, t.2 + 1))
      (a, b)).2
    = a + b + results.length := by
  induction results with
  | nil => intro a b; simp
  | cons nd rest ih =>
    intro a b
    simp only [List.foldl_cons, List.length_cons]
    by_cases hc : nodeChildren nd ≠ []
    · rw [if_pos hc]
      have := ih (a + 1) b
      omega
    · rw [if_neg hc]
      have := ih a (b + 1)
      omega

/-- Claim C9: for every well-formed taxonomy document, every result node is
classified exactly once (`nodes_with_children + nodes_without_children =
actual_nodes_in_file`), and `is_complete_dataset` holds iff both pagination
cursors are null or absent. -/
theorem C9_classification_partition_and_completeness (d : TaxDoc) :
    (count_taxonomy_nodes d).nodes_with_children
      + (count_taxonomy_nodes d).nodes_without_children
      = (count_taxonomy_nodes d).actual_nodes_in_file
    ∧ ((count_taxonomy_nodes d).is_complete_dataset = true
        ↔ d.next = none ∧ d.previous = none) := by
  constructor
  · have := childTally_aux (d.results.getD []) 0 0
    simpa [count_taxonomy_nodes, childTally] using this
  · obtain ⟨c, r, nx, pv⟩ := d
    cases nx <;> cases pv <;> simp [count_taxonomy_nodes]

/-! ## Claim theorems for the suffix-family enumeration (claim C1) -/

/-- Claim C1 counterexample: the enumeration of downloaded accessions in
check_missing_downloads.py counts the file IPR000005_taxonomy_by_cellorg.json
— which belongs to the `_taxonomy_by_cellorg` family — as the completed
accession IPR000005, refuting the claim that the two suffix families are
never cross-matched by every store enumeration. -/
theorem C1_cellorg_file_counted :
    get_downloaded_accessions ["IPR000005_taxonomy_by_cellorg.json"]
      = ["IPR000005"] := by
  decide

theorem not_taxonomy_suffix_of_cellorg_suffix (name : String)
    (h : "_taxonomy_by_cellorg.json".data.isSuffixOf name.data = true) :
    matchesTaxonomyGlob name = false := by
  have hc : "_taxonomy_by_cellorg.json".data <:+ name.data :=
    List.isSuffixOf_iff_suffix.mp h
  rw [matchesTaxonomyGlob]
  by_contra hne
  rw [Bool.not_eq_false] at hne
  have ht : "_taxonomy.json".data <:+ name.data :=
    List.isSuffixOf_iff_suffix.mp hne
  have hlen : ("_taxonomy.json".data).length
      ≤ ("_taxonomy_by_cellorg.json".data).length := by decide
  have : "_taxonomy.json".data <:+ "_taxonomy_by_cellorg.json".data :=
    List.suffix_of_suffix_length_le ht hc hlen
  revert this
  decide

/-- Claim C1 amended: the per-family enumeration of count_taxonomy_nodes.py
(glob `*_taxonomy.json`) never matches a file of the `_taxonomy_by_cellorg`
family; but the downloaded-accession enumeration of
check_missing_downloads.py (glob `*_taxonomy*.json`, accession = stem before
the first `_taxonomy`) deliberately spans both suffix families, so a file
named IPR000005_taxonomy_by_cellorg.json IS counted as accession IPR000005. -/
theorem C1_amended_family_matching (dir : List String) (name : String)
    (h : "_taxonomy_by_cellorg.json".data.isSuffixOf name.data = true) :
    matchesTaxonomyGlob name = false
    ∧ name ∉ process_directory_files dir
    ∧ get_downloaded_accessions ["IPR000005_taxonomy_by_cellorg.json"]
      = ["IPR000005"] := by
  have hglob := not_taxonomy_suffix_of_cellorg_suffix name h
  refine ⟨hglob, ?_, by decide⟩
  intro hmem
  rw [process_directory_files, List.mem_filter] at hmem
  rw [hglob] at hmem
  exact absurd hmem.2 (by decide)

/-- Witness for the amended C1 at the concrete cellorg file name. -/
theorem C1_amended_family_matching_witness :
    matchesTaxonomyGlob "IPR000005_taxonomy_by_cellorg.json" = false
    ∧ "IPR000005_taxonomy_by_cellorg.json"
      ∉ process_directory_files ["IPR000005_taxonomy_by_cellorg.json"]
    ∧ get_downloaded_accessions ["IPR000005_taxonomy_by_cellorg.json"]
      = ["IPR000005"] :=
  C1_amended_family_matching ["IPR000005_taxonomy_by_cellorg.json"]
    "IPR000005_taxonomy_by_cellorg.json" (by decide)

/-! ## Claim theorems for the table splitter (claim C10) -/

theorem takeEvery_getElem (n : Nat) (hn : 0 < n) :
    ∀ (l : List String) (j : Nat), (takeEvery n l)[j]? = l[n * j]?
  | [], j => by simp [takeEvery]
  | x :: xs, 0 => by simp [takeEvery]
  | x :: xs, j + 1 => by
    have ih := takeEvery_getElem n hn (xs.drop (n - 1)) j
    obtain ⟨m, hm⟩ : ∃ m, n * (j + 1) = m + 1 :=
      ⟨n * (j + 1) - 1, by
        have : 1 ≤ n * (j + 1) := Nat.one_le_iff_ne_zero.mpr
          (Nat.mul_ne_zero (by omega) (by omega))
        omega⟩
    rw [hm]
    simp only [takeEvery, List.getElem?_cons_succ]
    rw [ih, List.getElem?_drop]
    rw [Nat.mul_succ] at hm
    congr 1
    omega
termination_by l => l.length
decreasing_by
  simp only [List.length_drop, List.length_cons]
  omega

theorem slicePart_getElem (rows : List String) (n : Nat) (hn : 0 < n)
    (i j : Nat) : (slicePart rows i n)[j]? = rows[i + n * j]? := by
  rw [slicePart, takeEvery_getElem n hn, List.getElem?_drop]

theorem slicePart_zero_cons (x : String) (xs : List String) (n : Nat) :
    slicePart (x :: xs) 0 n = x :: slicePart xs (n - 1) n := by
  simp [slicePart, takeEvery]

theorem slicePart_succ_cons (x : String) (xs : List String) (i n : Nat) :
    slicePart (x :: xs) (i + 1) n = slicePart xs i n := by
  simp [slicePart, List.drop_succ_cons]

theorem split_tsv_perm (m : Nat) :
    ∀ rows : List String, (split_tsv rows (m + 1)).flatten.Perm rows := by
  intro rows
  induction rows with
  | nil =>
    have hempty : ∀ i, slicePart [] i (m + 1) = [] := by
      intro i
      simp [slicePart, takeEvery]
    simp [split_tsv, hempty]
  | cons x xs ih =>
    have hzero : slicePart (x :: xs) 0 (m + 1) = x :: slicePart xs m (m + 1) := by
      rw [slicePart_zero_cons, Nat.add_sub_cancel]
    have hfun : ((fun i => slicePart (x :: xs) i (m + 1)) ∘ Nat.succ)
        = fun i => slicePart xs i (m + 1) := by
      funext i
      exact slicePart_succ_cons x xs i (m + 1)
    show ((List.range (m + 1)).map
      (fun i => slicePart (x :: xs) i (m + 1))).flatten.Perm (x :: xs)
    rw [List.range_succ_eq_map, List.map_cons, List.map_map, List.flatten_cons,
      hzero, hfun, List.cons_append]
    refine List.Perm.cons x ?_
    have htail : ((List.range m).map (fun i => slicePart xs i (m + 1))).flatten
        ++ slicePart xs m (m + 1) = (split_tsv xs (m + 1)).flatten := by
      rw [split_tsv, List.range_succ, List.map_append, List.flatten_append]
      simp
    refine List.Perm.trans List.perm_append_comm ?_
    rw [htail]
    exact ih

/-- Claim C10: splitting into n parts (n ≥ 1) partitions the rows — the part
list has one part per residue, the row at input position idx lands in part
idx % n (0-based; 1-indexed part number (idx % n) + 1) at position idx / n,
parts keep the original relative order (positions i, i + n, i + 2n, ...), and
the concatenation of all parts is a permutation of the input rows. -/
theorem C10_split_partitions_rows (rows : List String) (n : Nat)
    (hn : 0 < n) :
    (∀ i, i < n → (split_tsv rows n)[i]? = some (slicePart rows i n))
    ∧ (∀ idx : Nat, (slicePart rows (idx % n) n)[idx / n]? = rows[idx]?)
    ∧ (split_tsv rows n).flatten.Perm rows := by
  obtain ⟨m, rfl⟩ : ∃ m, n = m + 1 := ⟨n - 1, by omega⟩
  refine ⟨?_, ?_, split_tsv_perm m rows⟩
  · intro i hi
    simp [split_tsv, List.getElem?_map, List.getElem?_range hi]
  · intro idx
    rw [slicePart_getElem rows (m + 1) hn]
    congr 1
    exact Nat.mod_add_div idx (m + 1)

/-- Witness for C10: five rows split into two parts; row 3 sits in part
3 % 2 = 1 at position 3 / 2 = 1, and the parts repartition the rows. -/
theorem C10_split_partitions_rows_witness :
    (split_tsv ["r0", "r1", "r2", "r3", "r4"] 2)[1]?
      = some (slicePart ["r0", "r1", "r2", "r3", "r4"] 1 2)
    ∧ (slicePart ["r0", "r1", "r2", "r3", "r4"] (3 % 2) 2)[3 / 2]?
      = ["r0", "r1", "r2", "r3", "r4"][3]?
    ∧ (split_tsv ["r0", "r1", "r2", "r3", "r4"] 2).flatten.Perm
        ["r0", "r1", "r2", "r3", "r4"] :=
  ⟨(C10_split_partitions_rows ["r0", "r1", "r2", "r3", "r4"] 2 (by decide)).1
      1 (by decide),
   (C10_split_partitions_rows ["r0", "r1", "r2", "r3", "r4"] 2 (by decide)).2.1 3,
   (C10_split_partitions_rows ["r0", "r1", "r2", "r3", "r4"] 2 (by decide)).2.2⟩

end InterProFetch
